import Mathlib

/-!
Shallow embedding of the `bundlecache` helper from
`src/tasks/bundle-cache.js` (grunt-bundle-cache).

Modelling conventions:
- Strings are modelled as Lean `String`s; the character-level content is
  `String.data : List Char`. The repository only manipulates ASCII HTML
  markers, so JavaScript UTF-16 indices coincide with character indices.
- The filesystem is a finite map from paths to the contents of existing
  regular files. A path absent from the map covers both the
  `!fs.existsSync(p)` and the `!fs.lstatSync(p).isFile()` cases of the
  destination check (line 77): the conjunction
  `existsSync(p) && lstatSync(p).isFile()` holds exactly when `p` is an
  existing regular file. `path.resolve` is taken as the identity (paths are
  given already resolved); directories among resolved source paths are
  outside the model.
- `grunt.file.expand` (glob expansion, an external collaborator per the
  design notes) is a parameter `expand : String -> List String`.
- `options.base` entries become `new RegExp('^' + base)` in the source and
  are stripped with `replace(re, '')`; for regex-metacharacter-free base
  strings this is exactly a literal prefix strip, which is how they are
  modelled here.
- `grunt.fail.warn` (line 78) aborts the run; `bundlecache` is therefore
  embedded as `Except BundleError String`, the `.ok` value being the new
  content written to the destination (line 114) and returned (line 116).
  An `.error` result means nothing was read from the sources and nothing
  was written.
-/

namespace BundleCache

/-- Task options after the normalisation done by the task wrapper
(lines 41-47): `base` is a list of prefix patterns, `filters` maps a file
extension (with its leading dot) to a content transform. A JavaScript
object keyed by extension strings is modelled as an association list. -/
structure Options where
  base : List String
  filters : List (String × (String → String))

/-- The one fatal error the source raises itself (line 78). -/
inductive BundleError where
  | invalidDestination
deriving DecidableEq

/-- Filesystem snapshot: the existing regular files, as path/content pairs. -/
structure FS where
  files : List (String × String)

/-- `grunt.file.read` / `fs.existsSync` combined: the content of the
existing regular file at `p`, when there is one. -/
def FS.read (fs : FS) (p : String) : Option String :=
  fs.files.lookup p

/-- Index of the last occurrence of a dot in a character list, if any. -/
def lastDot (cs : List Char) : Option Nat :=
  ((List.range cs.length).filter (fun i => cs.getD i ' ' = '.')).getLast?

/-- Node `path.extname` for POSIX paths (line 98): the suffix of the last
path segment starting at its last dot, including the dot; empty when the
segment has no dot or its only leading character is the dot (hidden
files). Segments consisting solely of dots do not occur in this
development. -/
def extname (p : String) : String :=
  let b := (p.data.reverse.takeWhile (fun c => c ≠ '/')).reverse
  match lastDot b with
  | none => ""
  | some 0 => ""
  | some i => String.mk (b.drop i)

/-- One step of base stripping (lines 92-94): `relPath.replace(re, '')`
with the start-anchored pattern `'^' + b` removes `b` when it is a prefix
of the path, and leaves the path unchanged otherwise. -/
def stripOne (b rel : String) : String :=
  if b.data.isPrefixOf rel.data then String.mk (rel.data.drop b.data.length) else rel

/-- The identifier computation (lines 91-94): every base pattern is applied
in sequence, each to the result of the previous. -/
def stripBases (base : List String) (p : String) : String :=
  base.foldl (fun rel b => stripOne b rel) p

/-- The filter application (lines 98-101): when `options.filters` has an
entry for the file's extension, the raw content is passed through it;
otherwise the content is kept verbatim. -/
def filteredContent (opts : Options) (filePath content : String) : String :=
  match opts.filters.lookup (extname filePath) with
  | some f => f content
  | none => content

/-- The script tag built for one resolved file (lines 90-107): identifier
from `stripBases`, content read from disk and passed through
`filteredContent`. The `.getD ""` is never exercised, as callers filter to
existing files first (line 90). -/
def makeTag (fs : FS) (opts : Options) (filePath : String) : String :=
  "<script type=\"text/ng-template\" id=\"" ++ stripBases opts.base filePath ++ "\">\n"
    ++ filteredContent opts filePath ((FS.read fs filePath).getD "") ++ "\n</script>"

/-- Lines 84-87: `files.reduce(...)` expands every pattern and concatenates
the results in pattern order onto the accumulator. -/
def resolveFiles (expand : String → List String) (files : List String) : List String :=
  files.foldl (fun all t => all ++ expand t) []

/-- Line 90: drop resolved paths that no longer exist, then map the rest to
script tags in list order. -/
def tagsFor (fs : FS) (opts : Options) (resolved : List String) : List String :=
  (resolved.filter (fun p => (FS.read fs p).isSome)).map (makeTag fs opts)

/-- JavaScript `String.prototype.indexOf` for a needle `nee` over `hay`:
index of the first occurrence, as an `Option`. -/
def firstIdx (nee : List Char) : List Char → Option Nat
  | [] => if nee.isPrefixOf ([] : List Char) then some 0 else none
  | c :: t =>
    if nee.isPrefixOf (c :: t) then some 0
    else (firstIdx nee t).map (fun n => n + 1)

/-- `html.indexOf(pat)` (line 112): first-occurrence index, `-1` if absent. -/
def jsIndexOf (s pat : String) : Int :=
  match firstIdx pat.data s.data with
  | some n => (n : Int)
  | none => -1

/-- Index clamping of JavaScript `String.prototype.slice`: a negative
index counts from the end of the string, and the result is clamped to
`[0, len]`. -/
def clampIdx (len : Nat) (i : Int) : Nat :=
  (if i < 0 then max ((len : Int) + i) 0 else min i (len : Int)).toNat

/-- JavaScript `String.prototype.slice(a, b)`: negative indices count from
the end, both ends are clamped to `[0, length]`, and an empty string
results when the clamped end precedes the clamped start. -/
def jsSlice (s : String) (a b : Int) : String :=
  String.mk ((s.data.take (clampIdx s.data.length b)).drop (clampIdx s.data.length a))

/-- One-argument `String.prototype.slice(a)`: slice to the end. -/
def jsSliceFrom (s : String) (a : Int) : String :=
  jsSlice s a (s.data.length : Int)

/-- JavaScript `Array.prototype.join(sep)`: empty string for the empty
array, otherwise the elements with `sep` between consecutive ones. -/
def joinSep (sep : String) : List String → String
  | [] => ""
  | [x] => x
  | x :: xs => x ++ sep ++ joinSep sep xs

/-- Lines 112-113: splice the joined tags into the destination text at the
index `html.indexOf('</body>')`, via the two JavaScript slices. -/
def spliceTags (html : String) (tags : List String) : String :=
  jsSlice html 0 (jsIndexOf html "</body>") ++ joinSep "\n" tags
    ++ jsSliceFrom html (jsIndexOf html "</body>")

/-- The `bundlecache` helper (lines 70-117). The destination check
(lines 76-79) precedes every source read and the write; a failing check
aborts with `invalidDestination` and nothing is read or written. On
success the returned string is both the value of line 116 and the content
written to the destination file on line 114. -/
def bundlecache (fs : FS) (expand : String → List String) (destination : String)
    (files : List String) (opts : Options) : Except BundleError String :=
  match FS.read fs destination with
  | none => .error .invalidDestination
  | some html =>
    let resolved := resolveFiles expand files
    let tags := tagsFor fs opts resolved
    .ok (spliceTags html tags)

end BundleCache

deriving instance DecidableEq for Except

namespace BundleCache

/-! ### Helper lemmas -/

/-- A first-occurrence index returned by `firstIdx` never exceeds the
length of the haystack. -/
theorem firstIdx_le (nee hay : List Char) (n : Nat)
    (h : firstIdx nee hay = some n) : n ≤ hay.length := by
  induction hay generalizing n with
  | nil =>
    unfold firstIdx at h
    split at h
    · simp only [Option.some.injEq] at h
      omega
    · simp at h
  | cons c t ih =>
    unfold firstIdx at h
    split at h
    · simp only [Option.some.injEq] at h
      omega
    · rcases Option.map_eq_some'.mp h with ⟨m, hm, hmn⟩
      have := ih m hm
      simp only [List.length_cons]
      omega

/-- `jsIndexOf` on a string that contains the pattern. -/
theorem jsIndexOf_eq_some (s pat : String) (n : Nat)
    (h : firstIdx pat.data s.data = some n) : jsIndexOf s pat = (n : Int) := by
  unfold jsIndexOf
  rw [h]

/-- `jsIndexOf` on a string that does not contain the pattern is `-1`. -/
theorem jsIndexOf_eq_none (s pat : String)
    (h : firstIdx pat.data s.data = none) : jsIndexOf s pat = -1 := by
  unfold jsIndexOf
  rw [h]

/-- Clamping an in-range non-negative index is the identity. -/
theorem clampIdx_eval (len : Nat) (i : Int) (h0 : 0 ≤ i) (h1 : i ≤ (len : Int)) :
    clampIdx len i = i.toNat := by
  unfold clampIdx
  split <;> omega

/-- Clamping the index `-1` points at the last character. -/
theorem clampIdx_negOne (len : Nat) : clampIdx len (-1) = len - 1 := by
  unfold clampIdx
  split <;> omega

/-- Unfolding `bundlecache` when the destination is an existing regular
file: the result is the spliced content. -/
theorem bundlecache_read_some (fs : FS) (expand : String → List String)
    (dest : String) (files : List String) (opts : Options) (html : String)
    (h : FS.read fs dest = some html) :
    bundlecache fs expand dest files opts
      = .ok (spliceTags html (tagsFor fs opts (resolveFiles expand files))) := by
  unfold bundlecache
  rw [h]

/-- When the marker occurs first at index `n`, `spliceTags` splits the text
at `n` and inserts the joined tags there. -/
theorem spliceTags_marker (html : String) (tags : List String) (n : Nat)
    (h : firstIdx ("</body>").data html.data = some n) :
    spliceTags html tags
      = String.mk (html.data.take n) ++ joinSep "\n" tags
        ++ String.mk (html.data.drop n) := by
  have hn : n ≤ html.data.length := firstIdx_le _ _ _ h
  unfold spliceTags jsSliceFrom jsSlice
  rw [jsIndexOf_eq_some _ _ _ h]
  have e0 : clampIdx html.data.length 0 = 0 := by
    unfold clampIdx
    split <;> omega
  have e1 : clampIdx html.data.length ((n : Nat) : Int) = n := by
    unfold clampIdx
    split <;> omega
  have e2 : clampIdx html.data.length ((html.data.length : Nat) : Int)
      = html.data.length := by
    unfold clampIdx
    split <;> omega
  rw [e0, e1, e2, List.drop_zero, List.take_length]

/-- When the marker is absent, `jsIndexOf` is `-1` and `spliceTags` splits
the text immediately before its last character. -/
theorem spliceTags_noMarker (html : String) (tags : List String)
    (h : firstIdx ("</body>").data html.data = none) :
    spliceTags html tags
      = String.mk (html.data.take (html.data.length - 1)) ++ joinSep "\n" tags
        ++ String.mk (html.data.drop (html.data.length - 1)) := by
  unfold spliceTags jsSliceFrom jsSlice
  rw [jsIndexOf_eq_none _ _ h]
  have em : clampIdx html.data.length (-1) = html.data.length - 1 :=
    clampIdx_negOne _
  have e0 : clampIdx html.data.length 0 = 0 := by
    unfold clampIdx
    split <;> omega
  have e2 : clampIdx html.data.length ((html.data.length : Nat) : Int)
      = html.data.length := by
    unfold clampIdx
    split <;> omega
  rw [em, e0, e2, List.drop_zero, List.take_length]

/-- `files.reduce` with a non-empty accumulator prepends the accumulator. -/
theorem resolveFiles_acc (expand : String → List String) (files : List String) :
    ∀ acc : List String,
      files.foldl (fun all t => all ++ expand t) acc = acc ++ resolveFiles expand files := by
  induction files with
  | nil =>
    intro acc
    simp [resolveFiles]
  | cons t ts ih =>
    intro acc
    unfold resolveFiles
    simp only [List.foldl_cons, List.nil_append]
    rw [ih (acc ++ expand t), ih (expand t)]
    simp [List.append_assoc]

/-! ### Claims -/

/-- C1: the claim states that on a destination with no `</body>` substring
the operation reports a MissingInsertionPoint error and does not overwrite
the destination. The code has no such error: on the destination content
`<p>x</p>` with one source file `a.html` containing `hi`, `indexOf`
returns `-1`, the two JavaScript slices split off the final character, and
the operation succeeds, overwriting the destination with the malformed
spliced content. -/
theorem c1_no_marker_still_overwrites :
    bundlecache ⟨[("dest.html", "<p>x</p>"), ("a.html", "hi")]⟩ (fun p => [p])
      "dest.html" ["a.html"] ⟨[], []⟩
      = .ok "<p>x</p<script type=\"text/ng-template\" id=\"a.html\">\nhi\n</script>>" := by
  decide

/-- C2: when the destination text has its first `</body>` at index `n`,
the output is the destination text with the tag blocks — each exactly
`<script type="text/ng-template" id="` ++ identifier ++ `">\n` ++ content
++ `\n</script>` — joined by newline and inserted at index `n`, i.e.
immediately before the first occurrence of the marker. -/
theorem c2_tag_format_and_insertion (fs : FS) (expand : String → List String)
    (dest : String) (files : List String) (opts : Options) (html : String) (n : Nat)
    (hdest : FS.read fs dest = some html)
    (hidx : firstIdx ("</body>").data html.data = some n) :
    bundlecache fs expand dest files opts
      = .ok (String.mk (html.data.take n)
          ++ joinSep "\n"
            (((resolveFiles expand files).filter (fun p => (FS.read fs p).isSome)).map
              (fun p =>
                "<script type=\"text/ng-template\" id=\"" ++ stripBases opts.base p ++ "\">\n"
                  ++ filteredContent opts p ((FS.read fs p).getD "") ++ "\n</script>"))
          ++ String.mk (html.data.drop n)) := by
  rw [bundlecache_read_some _ _ _ _ _ _ hdest, spliceTags_marker _ _ _ hidx]
  rfl

/-- C2 witness: the concrete example of the claim, destination
`<html><body>X</body></html>` and one source `a.html` containing `hello`
with empty base and filters. -/
theorem c2_witness :
    bundlecache ⟨[("index.html", "<html><body>X</body></html>"), ("a.html", "hello")]⟩
      (fun p => [p]) "index.html" ["a.html"] ⟨[], []⟩
      = .ok "<html><body>X<script type=\"text/ng-template\" id=\"a.html\">\nhello\n</script></body></html>" := by
  have h := c2_tag_format_and_insertion
    ⟨[("index.html", "<html><body>X</body></html>"), ("a.html", "hello")]⟩
    (fun p => [p]) "index.html" ["a.html"] ⟨[], []⟩
    "<html><body>X</body></html>" 13 rfl (by decide)
  exact h.trans (by decide)

/-- C3: when the destination text has its first `</body>` at index `n`,
the output is the original prefix before `n`, some inserted middle, and
the original suffix from `n` (marker included) unchanged. -/
theorem c3_suffix_prefix_preserved (fs : FS) (expand : String → List String)
    (dest : String) (files : List String) (opts : Options) (html : String) (n : Nat)
    (hdest : FS.read fs dest = some html)
    (hidx : firstIdx ("</body>").data html.data = some n) :
    ∃ mid : List Char,
      bundlecache fs expand dest files opts
        = .ok (String.mk (html.data.take n ++ mid ++ html.data.drop n)) := by
  refine ⟨(joinSep "\n" (tagsFor fs opts (resolveFiles expand files))).data, ?_⟩
  rw [bundlecache_read_some _ _ _ _ _ _ hdest, spliceTags_marker _ _ _ hidx]
  apply congrArg
  apply String.ext
  simp [String.data_append, List.append_assoc]

/-- C3 witness: concrete destination `<body>Q</body>` whose marker starts
at index 7, with one source file. -/
theorem c3_witness :
    ∃ mid : List Char,
      bundlecache ⟨[("d.html", "<body>Q</body>"), ("b.html", "bee")]⟩ (fun p => [p])
        "d.html" ["b.html"] ⟨[], []⟩
        = .ok (String.mk (("<body>Q</body>").data.take 7 ++ mid
            ++ ("<body>Q</body>").data.drop 7)) :=
  c3_suffix_prefix_preserved ⟨[("d.html", "<body>Q</body>"), ("b.html", "bee")]⟩
    (fun p => [p]) "d.html" ["b.html"] ⟨[], []⟩ "<body>Q</body>" 7 rfl (by decide)

/-- C4: the identifier is the path with every configured base prefix
applied in sequence as a start-anchored strip, each applied to the result
of the previous; when no prefix matches, the identifier is the original
path; and with base `["app/"]` the path `app/widgets/x.html` yields
`widgets/x.html`. -/
theorem c4_identifier_base_stripping :
    (∀ (b : String) (bs : List String) (p : String),
      stripBases (b :: bs) p
        = stripBases bs
            (if b.data.isPrefixOf p.data then String.mk (p.data.drop b.data.length) else p))
    ∧ (∀ (bs : List String) (p : String),
        (∀ b ∈ bs, b.data.isPrefixOf p.data = false) → stripBases bs p = p)
    ∧ stripBases ["app/"] "app/widgets/x.html" = "widgets/x.html" := by
  refine ⟨fun b bs p => rfl, ?_, by decide⟩
  intro bs
  induction bs with
  | nil => intro p h; rfl
  | cons b bs ih =>
    intro p h
    have hb : b.data.isPrefixOf p.data = false := h b (List.mem_cons_self b bs)
    have hrest : ∀ x ∈ bs, x.data.isPrefixOf p.data = false :=
      fun x hx => h x (List.mem_cons_of_mem b hx)
    show stripBases bs (stripOne b p) = p
    rw [show stripOne b p = p by unfold stripOne; rw [hb]; rfl]
    exact ih p hrest

/-- C4 witness: a base that is not a prefix leaves the path unchanged. -/
theorem c4_witness : stripBases ["q/"] "r.html" = "r.html" :=
  c4_identifier_base_stripping.2.1 ["q/"] "r.html" (by decide)

/-- C5: for a file whose extension is a key of `options.filters`, the
embedded content is the filter applied to the raw content; for a file
whose extension is absent, the embedded content is the raw content
verbatim. -/
theorem c5_extension_filters (fs : FS) (opts : Options) (p raw : String)
    (hread : FS.read fs p = some raw) :
    (∀ f : String → String, opts.filters.lookup (extname p) = some f →
      makeTag fs opts p
        = "<script type=\"text/ng-template\" id=\"" ++ stripBases opts.base p ++ "\">\n"
            ++ f raw ++ "\n</script>")
    ∧ (opts.filters.lookup (extname p) = none →
      makeTag fs opts p
        = "<script type=\"text/ng-template\" id=\"" ++ stripBases opts.base p ++ "\">\n"
            ++ raw ++ "\n</script>") := by
  constructor
  · intro f hf
    unfold makeTag filteredContent
    rw [hread, hf]
    rfl
  · intro hf
    unfold makeTag filteredContent
    rw [hread, hf]
    rfl

/-- C5 witness: a `.html` filter appending `!` is applied to the raw
content `hello`. -/
theorem c5_witness :
    makeTag ⟨[("a.html", "hello")]⟩ ⟨[], [(".html", fun s => s ++ "!")]⟩ "a.html"
      = "<script type=\"text/ng-template\" id=\"a.html\">\nhello!\n</script>" := by
  have h := (c5_extension_filters ⟨[("a.html", "hello")]⟩
    ⟨[], [(".html", fun s => s ++ "!")]⟩ "a.html" "hello" rfl).1
    (fun s => s ++ "!") rfl
  exact h.trans (by decide)

/-- C6: for a valid destination containing the marker, an empty resolved
source list leaves the destination content unchanged. -/
theorem c6_empty_sources_identity (fs : FS) (expand : String → List String)
    (dest : String) (files : List String) (opts : Options) (html : String) (n : Nat)
    (hdest : FS.read fs dest = some html)
    (hres : resolveFiles expand files = [])
    (hidx : firstIdx ("</body>").data html.data = some n) :
    bundlecache fs expand dest files opts = .ok html := by
  rw [bundlecache_read_some _ _ _ _ _ _ hdest, hres,
    spliceTags_marker _ _ _ hidx]
  have ht : joinSep "\n" (tagsFor fs opts ([] : List String)) = "" := rfl
  rw [ht]
  apply congrArg
  apply String.ext
  have he : ("" : String).data = [] := rfl
  simp [String.data_append, he]

/-- C6 witness: one pattern that expands to no files, destination
`<body></body>`. -/
theorem c6_witness :
    bundlecache ⟨[("d.html", "<body></body>")]⟩ (fun _ => []) "d.html"
      ["*.html"] ⟨[], []⟩ = .ok "<body></body>" :=
  c6_empty_sources_identity ⟨[("d.html", "<body></body>")]⟩ (fun _ => [])
    "d.html" ["*.html"] ⟨[], []⟩ "<body></body>" 6 rfl rfl (by decide)

/-- C7: pattern resolution is the concatenation of each pattern's
expansion in pattern order (no de-duplication, no sorting), and the tag
blocks appear in the output in that list order, adjacent blocks separated
by exactly one newline — witnessed end to end on two source files. -/
theorem c7_order_and_join (expand : String → List String) :
    (∀ (t : String) (ts : List String),
      resolveFiles expand (t :: ts) = expand t ++ resolveFiles expand ts)
    ∧ resolveFiles expand [] = []
    ∧ bundlecache ⟨[("d.html", "<body></body>"), ("a.html", "A"), ("b.html", "B")]⟩
        (fun p => [p]) "d.html" ["a.html", "b.html"] ⟨[], []⟩
        = .ok ("<body><script type=\"text/ng-template\" id=\"a.html\">\nA\n</script>\n<script type=\"text/ng-template\" id=\"b.html\">\nB\n</script></body>") := by
  refine ⟨?_, rfl, by decide⟩
  intro t ts
  show ts.foldl (fun all tt => all ++ expand tt) ([] ++ expand t)
    = expand t ++ resolveFiles expand ts
  rw [List.nil_append, resolveFiles_acc]

/-- C7 witness: with singleton expansion, two patterns resolve to the two
paths in pattern order. -/
theorem c7_witness :
    resolveFiles (fun p => [p]) ["a.html", "b.html"] = ["a.html", "b.html"] := by
  have h := (c7_order_and_join (fun p => [p])).1 "a.html" ["b.html"]
  exact h.trans (by decide)

/-- C8: when the destination is not an existing regular file the operation
fails with the configuration error `invalidDestination`, whatever the
source patterns, their expansion and the options are — so the failure does
not depend on and does not touch any source file, and nothing is written
(an `.error` result writes nothing in this model; in the source the check
on lines 76-79 precedes every read of the sources and the write). -/
theorem c8_invalid_destination (fs : FS) (dest : String)
    (h : FS.read fs dest = none) :
    ∀ (expand : String → List String) (files : List String) (opts : Options),
      bundlecache fs expand dest files opts = .error .invalidDestination := by
  intro expand files opts
  unfold bundlecache
  rw [h]

/-- C8 witness: a destination path absent from the filesystem. -/
theorem c8_witness :
    bundlecache ⟨[("a.html", "x")]⟩ (fun p => [p]) "missing.html" ["a.html"] ⟨[], []⟩
      = .error .invalidDestination :=
  c8_invalid_destination ⟨[("a.html", "x")]⟩ "missing.html" rfl (fun p => [p])
    ["a.html"] ⟨[], []⟩

/-- C9: a resolved path that does not exist at read time is silently
excluded from the tag-block list: the list is the same as if the path had
not been resolved at all, and the surrounding files are still processed in
their order. -/
theorem c9_stale_path_excluded (fs : FS) (opts : Options) (p : String)
    (l1 l2 : List String) (h : FS.read fs p = none) :
    tagsFor fs opts (l1 ++ p :: l2) = tagsFor fs opts (l1 ++ l2) := by
  unfold tagsFor
  have hp : ((FS.read fs p).isSome) = false := by rw [h]; rfl
  rw [List.filter_append, List.filter_append, List.filter_cons_of_neg]
  simp [hp]

/-- C9 witness: a vanished path between two existing files changes nothing
in the tag-block list. -/
theorem c9_witness :
    tagsFor ⟨[("a.html", "A"), ("b.html", "B")]⟩ ⟨[], []⟩
        (["a.html"] ++ "ghost.html" :: ["b.html"])
      = tagsFor ⟨[("a.html", "A"), ("b.html", "B")]⟩ ⟨[], []⟩ (["a.html"] ++ ["b.html"]) :=
  c9_stale_path_excluded ⟨[("a.html", "A"), ("b.html", "B")]⟩ ⟨[], []⟩
    "ghost.html" ["a.html"] ["b.html"] rfl

/-- C10: on a non-empty destination text with no `</body>` and a non-empty
resolved source list, the content written back is the original text with
its final character removed, then the tag blocks joined by newline, then
that final character; the operation still succeeds and overwrites the
destination. -/
theorem c10_no_marker_splices_before_last (fs : FS) (expand : String → List String)
    (dest : String) (files : List String) (opts : Options) (html : String)
    (ys : List Char) (c : Char)
    (hdest : FS.read fs dest = some html)
    (hdata : html.data = ys ++ [c])
    (hnonempty : resolveFiles expand files ≠ [])
    (hnomark : firstIdx ("</body>").data html.data = none) :
    bundlecache fs expand dest files opts
      = .ok (String.mk ys
          ++ joinSep "\n" (tagsFor fs opts (resolveFiles expand files))
          ++ String.mk [c]) := by
  rw [bundlecache_read_some _ _ _ _ _ _ hdest, spliceTags_noMarker _ _ hnomark]
  rw [hdata]
  have hlen : (ys ++ [c]).length - 1 = ys.length := by simp
  rw [hlen, List.take_left, List.drop_left]

/-- C10 witness: destination `<div>Z</div>` (no marker) and one source
`a.html` containing `hi`. -/
theorem c10_witness :
    bundlecache ⟨[("d.html", "<div>Z</div>"), ("a.html", "hi")]⟩ (fun p => [p])
      "d.html" ["a.html"] ⟨[], []⟩
      = .ok (String.mk ("<div>Z</div>").data.dropLast
          ++ joinSep "\n"
            (tagsFor ⟨[("d.html", "<div>Z</div>"), ("a.html", "hi")]⟩ ⟨[], []⟩
              (resolveFiles (fun p => [p]) ["a.html"]))
          ++ String.mk ['>']) :=
  c10_no_marker_splices_before_last ⟨[("d.html", "<div>Z</div>"), ("a.html", "hi")]⟩
    (fun p => [p]) "d.html" ["a.html"] ⟨[], []⟩ "<div>Z</div>"
    ("<div>Z</div>").data.dropLast '>' rfl (by decide) (by decide) (by decide)

end BundleCache
